/-
Verification of the outlook-actions pipeline step (src/app/main.py) against
its natural-language specification.

The source is shallowly embedded: Python JSON values become the inductive
`Json`; Python `dict.get`, truthiness, slicing, iteration and `int`
comparison become explicit helpers with Python semantics; code that can
`sys.exit(1)` or raise an uncaught exception returns the `Outcome` type.
The HTTP transport is an explicit environment: a list of page responses
for the paginated fetch, and an `HttpOutcome` for each mutation request.
-/
import Mathlib

namespace OutlookStep

/-- A JSON value as Python's `json` module produces it.  Numbers are
modelled as integers: every numeric field the pipeline inspects (`top`)
is integral in the spec and claims. -/
inductive Json where
  | null
  | bool (b : Bool)
  | num (n : Int)
  | str (s : String)
  | arr (items : List Json)
  | obj (fields : List (String × Json))

/-- Python truthiness (`bool(x)`) of a JSON value: `None`, `False`, `0`,
`""`, `[]`, and `{}` are falsy, everything else truthy. -/
def Json.truthy : Json → Bool
  | .null => false
  | .bool b => b
  | .num n => n != 0
  | .str s => s != ""
  | .arr items => !items.isEmpty
  | .obj fields => !fields.isEmpty

/-- Python `repr()` of a JSON value (used by `str()` on containers).
String escaping inside reprs is not modelled; no claim depends on it. -/
def Json.pyRepr : Json → String
  | .null => "None"
  | .bool b => if b then "True" else "False"
  | .num n => toString n
  | .str s => "\x27" ++ s ++ "\x27"
  | .arr items => "[" ++ String.intercalate ", " (items.attach.map (fun x => Json.pyRepr x.1)) ++ "]"
  | .obj fields => "\x7b" ++ String.intercalate ", " (fields.attach.map (fun x => "\x27" ++ x.1.1 ++ "\x27: " ++ Json.pyRepr x.1.2)) ++ "\x7d"
decreasing_by
· have h := List.sizeOf_lt_of_mem x.2
  simp only [Json.arr.sizeOf_spec]
  omega
· rcases x with ⟨⟨k, v⟩, hm⟩
  have h := List.sizeOf_lt_of_mem hm
  simp only [Prod.mk.sizeOf_spec] at h
  simp only [Json.obj.sizeOf_spec]
  omega

/-- Python `str()` of a JSON value, as used in f-strings. -/
def Json.pyStr : Json → String
  | .str s => s
  | j => j.pyRepr

/-- Python `d.get(key, default)`: returns the stored value when the key is
present (even when that value is `None`), the default when absent, and
raises `AttributeError` when the receiver is not a dict. -/
def pyGetD : Json → String → Json → Except String Json
  | .obj fields, key, dflt => .ok ((fields.lookup key).getD dflt)
  | _, _, _ => .error "AttributeError: get"

/-- Python `d.get(key)` (default `None`). -/
def pyGet (j : Json) (key : String) : Except String Json :=
  pyGetD j key Json.null

/-- Python iteration `for x in j`: lists yield their elements, strings
their characters, dicts their keys; other values raise `TypeError`. -/
def pyToList : Json → Except String (List Json)
  | .arr items => .ok items
  | .str s => .ok (s.toList.map (fun c => Json.str c.toString))
  | .obj fields => .ok (fields.map (fun kv => Json.str kv.1))
  | _ => .error "TypeError: not iterable"

/-- Python `int` coercion as it happens in `len(messages) >= top`: ints
compare as themselves, bools as 0/1, anything else raises `TypeError`. -/
def pyInt : Json → Except String Int
  | .num n => .ok n
  | .bool b => .ok (if b then 1 else 0)
  | _ => .error "TypeError: unorderable types"

/-- Python slice `l[:n]`, including the negative-index case. -/
def pyTake (l : List Json) (n : Int) : List Json :=
  if 0 ≤ n then l.take n.toNat else l.take (l.length - n.natAbs)

/-- Left-to-right effectful map, as a Python list comprehension evaluates:
the first exception aborts the whole comprehension. -/
def mapME (f : Json → Except String Json) : List Json → Except String (List Json)
  | [] => .ok []
  | x :: xs =>
    match f x with
    | .error e => .error e
    | .ok y =>
      match mapME f xs with
      | .error e => .error e
      | .ok ys => .ok (y :: ys)

/-- `d.get(key)` on a known dict (field list). -/
def dictGet (fields : List (String × Json)) (key : String) : Json :=
  (fields.lookup key).getD Json.null

/-- `d.get(key, default)` on a known dict (field list). -/
def dictGetD (fields : List (String × Json)) (key : String) (dflt : Json) : Json :=
  (fields.lookup key).getD dflt

/-- Outcome of running a piece of the pipeline: a normal return value, a
fatal `sys.exit(1)` (with its diagnostic), or an uncaught exception. -/
inductive Outcome (α : Type) where
  | ok (a : α)
  | fatal (msg : String)
  | raised (msg : String)

/- ## Mailbox Reader (fetch_emails, main.py lines 44-116) -/

/-- `GET` request issued by the pagination loop: the URL it hit and the
query parameters attached (`None` for continuation requests). -/
structure GetRequest where
  url : String
  params : Option (List (String × Json))

/-- One provider response in the fetch chain: a 200 response whose parsed
body carried the given `value` list (absent modelled as `[]`) and
`@odata.nextLink` (null when absent), or a non-200 response.  A body whose
`value` is not a list would abort exactly like any other in-loop
exception (`sys.exit(1)`) and no claim depends on it, so it is not given
a separate constructor. -/
inductive PageResp where
  | ok (value : List Json) (nextLink : Json)
  | err (status : Nat) (text : String)

/-- The `value` list of a page response. -/
def PageResp.pageValue : PageResp → List Json
  | .ok v _ => v
  | .err _ _ => []

/-- All messages the provider chain holds, in provider order. -/
def allMessages : List PageResp → List Json
  | [] => []
  | p :: rest => p.pageValue ++ allMessages rest

/-- The continuation link is a usable URL (a nonempty string): anything
else either ends the loop (falsy) or aborts it (non-string truthy). -/
def goodLink : Json → Bool
  | .str u => u != ""
  | _ => false

/-- A well-formed provider chain: at least one page (the loop always
issues the first request), every page a 200, every non-final page with a
usable continuation link, and the final page without one. -/
def wfChain : List PageResp → Bool
  | [] => false
  | p :: rest =>
    match p with
    | .err _ _ => false
    | .ok _ next =>
      match rest with
      | [] => !next.truthy
      | _ :: _ => goodLink next && wfChain rest

/-- Number of pages the loop consumes before stopping: it stops at the
first page that brings the accumulated count up to `top` (or at the end
of the chain). -/
def pagesNeeded (top : Nat) (accLen : Nat) : List PageResp → Nat
  | [] => 0
  | p :: rest =>
    if top ≤ accLen + p.pageValue.length then 1
    else 1 + pagesNeeded top (accLen + p.pageValue.length) rest

/-- `https://graph.microsoft.com/v1.0/users/{user_id}/messages`. -/
def messagesUrl (user_id : String) : String :=
  s!"https://graph.microsoft.com/v1.0/users/{user_id}/messages"

/-- `https://graph.microsoft.com/v1.0/users/{user_id}/mailFolders/{folder}/messages`. -/
def mailFoldersUrl (user_id folder : String) : String :=
  s!"https://graph.microsoft.com/v1.0/users/{user_id}/mailFolders/{folder}/messages"

/-- First-page query parameters (main.py lines 71-77): `$top` and
`$orderby` always, `$filter` only when a truthy filter was supplied. -/
def build_params (top filter_query : Json) : List (String × Json) :=
  [("$top", top), ("$orderby", Json.str "receivedDateTime DESC")] ++
    (if filter_query.truthy then [("$filter", filter_query)] else [])

/-- Base-URL selection (main.py lines 60-64): a truthy folder other than
"inbox" (case-insensitive) addresses the folder's collection; otherwise
the mailbox's direct messages endpoint.  `folder.lower()` on a truthy
non-string raises *before* the `try` block, hence the error case. -/
def fetch_base_url (user_id : String) (folder : Json) : Except String String :=
  match folder with
  | .str s =>
    .ok (if s != "" && s.toLower != "inbox" then mailFoldersUrl user_id s else messagesUrl user_id)
  | j => if j.truthy then .error "AttributeError: lower" else .ok (messagesUrl user_id)

/-- The pagination loop (main.py lines 82-112), driven by the provider
chain.  Per line 84, parameters are attached exactly when the URL under
request equals the base URL.  An exhausted chain while a link is still
pending stands for a transport exception, which the `except` clause turns
into `sys.exit(1)`.  The `top` comparison (line 108) happens after each
page, so a non-integer `top` aborts fatally (caught `TypeError`). -/
def fetch_loop (base : String) (params : List (String × Json)) (top : Json) :
    String → List Json → List GetRequest → List PageResp → List GetRequest × Outcome (List Json)
  | _, _, reqs, [] => (reqs, .fatal "Error fetching emails: transport exception")
  | url, acc, reqs, resp :: rest =>
    let reqs2 := reqs ++ [⟨url, if url = base then some params else none⟩]
    match resp with
    | .err status _ => (reqs2, .fatal ("Error fetching emails: Status " ++ toString status))
    | .ok value next =>
      let acc2 := acc ++ value
      match pyInt top with
      | .error e => (reqs2, .fatal ("Error fetching emails: " ++ e))
      | .ok t =>
        if (acc2.length : Int) ≥ t then (reqs2, .ok (pyTake acc2 t))
        else if next.truthy then
          match next with
          | .str u => fetch_loop base params top u acc2 reqs2 rest
          | _ => (reqs2, .fatal "Error fetching emails: url must be a string")
        else (reqs2, .ok acc2)

/-- `fetch_emails` (main.py lines 44-116): build the base URL (raising
past the function on a bad folder), then run the pagination loop.
Returns the requests issued and the outcome. -/
def fetch_emails (user_id : String) (folder top filter_query : Json) (chain : List PageResp) :
    List GetRequest × Outcome (List Json) :=
  match fetch_base_url user_id folder with
  | .error e => ([], .raised e)
  | .ok base => fetch_loop base (build_params top filter_query) top base [] [] chain

/- ## Mailbox Mutator (move_email / update_email_state, main.py lines 119-218) -/

/-- What the transport did with one mutation request: a response with a
status code and body text, or a raised exception. -/
inductive HttpOutcome where
  | resp (status : Nat) (text : String)
  | exc (msg : String)

/-- A mutation (`POST`/`PATCH`) request: its URL and JSON body. -/
structure MutRequest where
  url : String
  body : List (String × Json)

/-- Result of one dispatched action: a list of normalized messages (from
`read`) or a single `{success, message}` record. -/
inductive ActionResult where
  | messages (msgs : List Json)
  | status (success : Bool) (message : String)

/-- `https://graph.microsoft.com/v1.0/users/{user_id}/messages/{message_id}`. -/
def messageUrl (user_id : String) (message_id : Json) : String :=
  let mid := Json.pyStr message_id
  s!"https://graph.microsoft.com/v1.0/users/{user_id}/messages/{mid}"

/-- `move_email` (main.py lines 119-161).  Always issues exactly one
`POST` naming the destination; success on 200/201, any other status or a
transport exception becomes a `{success: false}` record. -/
def move_email (user_id : String) (message_id target_folder : Json) (transport : HttpOutcome) :
    ActionResult × MutRequest :=
  let mid := Json.pyStr message_id
  let tgt := Json.pyStr target_folder
  let req : MutRequest := ⟨messageUrl user_id message_id ++ "/move", [("destinationId", target_folder)]⟩
  match transport with
  | .resp status text =>
    if status = 200 ∨ status = 201 then
      (.status true ("Email " ++ mid ++ " moved to " ++ tgt), req)
    else
      (.status false ("Failed to move email " ++ mid ++ ": Status " ++ toString status ++ ": " ++ text), req)
  | .exc e => (.status false ("Error moving email " ++ mid ++ ": " ++ e), req)

/-- The partial-update body (main.py lines 186-192): `flag` exactly when
`flagged` is not None (its truthiness choosing flagged/notFlagged), then
`isRead` exactly when `is_read` is not None (passed through as given). -/
def update_body (flagged is_read : Json) : List (String × Json) :=
  (match flagged with
   | Json.null => []
   | f => [("flag", Json.obj [("flagStatus", Json.str (if f.truthy then "flagged" else "notFlagged"))])]) ++
  (match is_read with
   | Json.null => []
   | r => [("isRead", r)])

/-- `update_email_state` (main.py lines 164-218).  An empty update body
returns failure without any request; otherwise exactly one `PATCH` is
issued, succeeding only on status 200, with any other status or a
transport exception becoming a `{success: false}` record. -/
def update_email_state (user_id : String) (message_id flagged is_read : Json)
    (transport : HttpOutcome) : ActionResult × List MutRequest :=
  let mid := Json.pyStr message_id
  let body := update_body flagged is_read
  if body.isEmpty then
    (.status false ("No state changes specified for email " ++ mid), [])
  else
    let req : MutRequest := ⟨messageUrl user_id message_id, body⟩
    match transport with
    | .resp status text =>
      if status = 200 then (.status true ("Email " ++ mid ++ " state updated"), [req])
      else (.status false ("Failed to update email " ++ mid ++ ": Status " ++ toString status ++ ": " ++ text), [req])
    | .exc e => (.status false ("Error updating email " ++ mid ++ ": " ++ e), [req])

/- ## Message Normalizer (parse_email, main.py lines 221-266) -/

/-- One entry of the `to`/`cc` comprehensions (main.py lines 239-242):
`recipient.get('emailAddress', {}).get(...)`, raising when the recipient
is not a dict or its `emailAddress` is present but not a dict. -/
def parseRecipient (recipient : Json) : Except String Json := do
  let ea ← pyGetD recipient "emailAddress" (Json.obj [])
  let name ← pyGet ea "name"
  let addr ← pyGet ea "address"
  return Json.obj [("name", name), ("address", addr)]

/-- `parse_email` (main.py lines 221-266): each field via `.get` with the
source's defaults.  Nested accesses (`from`, `body`, recipient lists) use
the chained `.get(key, {})` pattern, so a field *present* with a non-dict
value (e.g. null) raises, while an *absent* field degrades to the
default. -/
def parse_email (message : Json) : Except String Json := do
  let idv ← pyGet message "id"
  let subject ← pyGet message "subject"
  let fromObj ← pyGetD message "from" (Json.obj [])
  let fromEA ← pyGetD fromObj "emailAddress" (Json.obj [])
  let fromName ← pyGet fromEA "name"
  let fromAddr ← pyGet fromEA "address"
  let toRaw ← pyGetD message "toRecipients" (Json.arr [])
  let toItems ← pyToList toRaw
  let toParsed ← mapME parseRecipient toItems
  let ccRaw ← pyGetD message "ccRecipients" (Json.arr [])
  let ccItems ← pyToList ccRaw
  let ccParsed ← mapME parseRecipient ccItems
  let received ← pyGet message "receivedDateTime"
  let sent ← pyGet message "sentDateTime"
  let hasAtt ← pyGetD message "hasAttachments" (Json.bool false)
  let importance ← pyGet message "importance"
  let isReadV ← pyGetD message "isRead" (Json.bool false)
  let isDraftV ← pyGetD message "isDraft" (Json.bool false)
  let bodyPreview ← pyGet message "bodyPreview"
  let bodyObj ← pyGetD message "body" (Json.obj [])
  let bodyCT ← pyGet bodyObj "contentType"
  let bodyC ← pyGet bodyObj "content"
  let convId ← pyGet message "conversationId"
  let imId ← pyGet message "internetMessageId"
  let webLink ← pyGet message "webLink"
  return Json.obj [("id", idv), ("subject", subject),
    ("from", Json.obj [("name", fromName), ("address", fromAddr)]),
    ("to", Json.arr toParsed), ("cc", Json.arr ccParsed),
    ("receivedDateTime", received), ("sentDateTime", sent),
    ("hasAttachments", hasAtt), ("importance", importance),
    ("isRead", isReadV), ("isDraft", isDraftV),
    ("bodyPreview", bodyPreview),
    ("body", Json.obj [("contentType", bodyCT), ("content", bodyC)]),
    ("conversationId", convId), ("internetMessageId", imId), ("webLink", webLink)]

/- ## Action Dispatcher (process_action, main.py lines 269-333) -/

/-- The per-action slice of the environment: the provider's page chain
for a `read`, and the transport's behaviour for a `POST` move or `PATCH`
state update. -/
structure ActionEnv where
  chain : List PageResp
  moveTransport : HttpOutcome
  patchTransport : HttpOutcome

/-- `process_action` (main.py lines 269-333).  Returns the outcome (an
`ActionResult`, a fatal fetch abort, or an uncaught exception) together
with the mutation requests issued (`GET`s of a read are recorded inside
`fetch_emails`).  Python compares `action.get('action')` against string
literals with `==`, which is false for any non-string, hence the literal
patterns; a non-dict action record raises on `.get`. -/
def process_action (user_id : String) (action : Json) (env : ActionEnv) :
    Outcome ActionResult × List MutRequest :=
  match action with
  | .obj al =>
    match dictGet al "action" with
    | .str "read" =>
      let folder := dictGetD al "folder" (Json.str "inbox")
      let top := dictGetD al "top" (Json.num 100)
      let filter_query := dictGet al "filter"
      match (fetch_emails user_id folder top filter_query env.chain).2 with
      | .ok msgs =>
        match mapME parse_email msgs with
        | .ok parsed => (.ok (.messages parsed), [])
        | .error e => (.raised e, [])
      | .fatal m => (.fatal m, [])
      | .raised m => (.raised m, [])
    | .str "move" =>
      let message_id := dictGet al "mail"
      let target_folder := dictGet al "folder"
      if !message_id.truthy || !target_folder.truthy then
        (.ok (.status false "Move action requires both \"mail\" and \"folder\" fields"), [])
      else
        let r := move_email user_id message_id target_folder env.moveTransport
        (.ok r.1, [r.2])
    | .str "state" =>
      let message_id := dictGet al "mail"
      let flagged := dictGet al "flagged"
      let is_read := dictGet al "isRead"
      if !message_id.truthy then
        (.ok (.status false "State action requires \"mail\" field"), [])
      else
        let r := update_email_state user_id message_id flagged is_read env.patchTransport
        (.ok r.1, r.2)
    | other => (.ok (.status false ("Unknown action type: " ++ Json.pyStr other)), [])
  | _ => (.raised "AttributeError: get", [])

/- ## Batch Runner and legacy mode (main, main.py lines 336-389) -/

/-- The flattening of one dispatched result into output records
(main.py lines 361-366): a read's messages are appended individually, a
status record as a single JSON object. -/
def ActionResult.records : ActionResult → List Json
  | .messages msgs => msgs
  | .status success message =>
    [Json.obj [("success", Json.bool success), ("message", Json.str message)]]

/-- The records a dispatch outcome contributes to the output (none when
the run dies first). -/
def outRecords : Outcome ActionResult → List Json
  | .ok r => r.records
  | .fatal _ => []
  | .raised _ => []

/-- Concatenation of per-action record lists. -/
def listFlat : List (List Json) → List Json
  | [] => []
  | l :: rest => l ++ listFlat rest

/-- The batch loop (main.py lines 355-369): dispatch each action in
order, extending the output with a read's list and appending a single
status record otherwise.  Output is written only at the end, so a fatal
exit or an uncaught exception anywhere loses the whole output. -/
def run_actions (user_id : String) : List (Json × ActionEnv) → Outcome (List Json)
  | [] => .ok []
  | (action, env) :: rest =>
    match (process_action user_id action env).1 with
    | .ok r =>
      match run_actions user_id rest with
      | .ok l => .ok (r.records ++ l)
      | .fatal m => .fatal m
      | .raised m => .raised m
    | .fatal m => .fatal m
    | .raised m => .raised m

/-- The top-level optional configuration fields used by legacy mode. -/
structure Config where
  folder : Json
  top : Json
  filter : Json

/-- Legacy mode (main.py lines 372-389): no input file, so fetch with the
config's folder/top/filter (each defaulted through Python truthiness),
parse every message, and emit the parsed list directly. -/
def legacy_run (user_id : String) (cfg : Config) (chain : List PageResp) : Outcome (List Json) :=
  let folder := if cfg.folder.truthy then cfg.folder else Json.str "inbox"
  let top := if cfg.top.truthy then cfg.top else Json.num 100
  let filter_query := if cfg.filter.truthy then cfg.filter else Json.null
  match (fetch_emails user_id folder top filter_query chain).2 with
  | .ok msgs =>
    match mapME parse_email msgs with
    | .ok parsed => .ok parsed
    | .error e => .raised e
  | .fatal m => .fatal m
  | .raised m => .raised m

/-- The single `read` action that claim C3 says legacy mode is equivalent
to: built from the top-level configuration with its defaults applied. -/
def synthAction (cfg : Config) : Json :=
  Json.obj [("action", Json.str "read"),
    ("folder", if cfg.folder.truthy then cfg.folder else Json.str "inbox"),
    ("top", if cfg.top.truthy then cfg.top else Json.num 100),
    ("filter", if cfg.filter.truthy then cfg.filter else Json.null)]

/- ## Spec-side predicates and concrete inputs -/

/-- A recipient entry the comprehension can normalize: a dict whose
`emailAddress`, when present, is itself a dict. -/
def recipientOk : Json → Bool
  | .obj fields =>
    match fields.lookup "emailAddress" with
    | none => true
    | some (.obj _) => true
    | some _ => false
  | _ => false

/-- A `toRecipients`/`ccRecipients` value the comprehension can iterate
and normalize: a list of well-formed recipients. -/
def recipientsOk : Json → Bool
  | .arr items => items.all recipientOk
  | _ => false

/-- A raw message record on which normalization is total: a dict whose
nested-access fields, *when present*, have the dict/list shape the
chained `.get` pattern needs.  Absent fields are always fine. -/
def wellFormedRaw : Json → Bool
  | .obj fields =>
    (match fields.lookup "from" with
     | none => true
     | some v => recipientOk v) &&
    (match fields.lookup "body" with
     | none => true
     | some (.obj _) => true
     | some _ => false) &&
    (match fields.lookup "toRecipients" with
     | none => true
     | some v => recipientsOk v) &&
    (match fields.lookup "ccRecipients" with
     | none => true
     | some v => recipientsOk v)
  | _ => false

/-- The fixed key set of a normalized message, in output order. -/
def parsedKeys : List String :=
  ["id", "subject", "from", "to", "cc", "receivedDateTime", "sentDateTime",
   "hasAttachments", "importance", "isRead", "isDraft", "bodyPreview",
   "body", "conversationId", "internetMessageId", "webLink"]

/-- What normalizing the empty record yields: every missing provider
field maps to null, false, or an empty sequence. -/
def emptyParsed : Json :=
  Json.obj [("id", Json.null), ("subject", Json.null),
    ("from", Json.obj [("name", Json.null), ("address", Json.null)]),
    ("to", Json.arr []), ("cc", Json.arr []),
    ("receivedDateTime", Json.null), ("sentDateTime", Json.null),
    ("hasAttachments", Json.bool false), ("importance", Json.null),
    ("isRead", Json.bool false), ("isDraft", Json.bool false),
    ("bodyPreview", Json.null),
    ("body", Json.obj [("contentType", Json.null), ("content", Json.null)]),
    ("conversationId", Json.null), ("internetMessageId", Json.null),
    ("webLink", Json.null)]

/-- A folder argument with the shape the spec's data model gives it: a
string, or a falsy value (which skips `.lower()` entirely). -/
def folderArg (folder : Json) : Prop :=
  (∃ s, folder = Json.str s) ∨ folder.truthy = false

/-- Every raw message the chain can deliver is well-formed. -/
def wfRawChain (chain : List PageResp) : Prop :=
  ∀ p ∈ chain, ∀ v ∈ p.pageValue, wellFormedRaw v = true

/-- A `state` action as the spec's data model types it: a string mail id
and optional boolean `flagged`/`isRead`, each present exactly when
supplied. -/
def stateAction (mail : String) (flagged isRead : Option Bool) : Json :=
  Json.obj ([("action", Json.str "state"), ("mail", Json.str mail)] ++
    (match flagged with | some b => [("flagged", Json.bool b)] | none => []) ++
    (match isRead with | some b => [("isRead", Json.bool b)] | none => []))

/-- The `PATCH` body claim C5 demands: exactly the supplied fields. -/
def stateBody (flagged isRead : Option Bool) : List (String × Json) :=
  (match flagged with
   | some b => [("flag", Json.obj [("flagStatus", Json.str (if b then "flagged" else "notFlagged"))])]
   | none => []) ++
  (match isRead with | some b => [("isRead", Json.bool b)] | none => [])

/- ## Helper lemmas -/

theorem goodLink_iff (j : Json) : goodLink j = true ↔ ∃ u, j = Json.str u ∧ u ≠ "" := by
  cases j <;> simp [goodLink]

theorem wfChain_cons_ok (v : List Json) (next : Json) (rest : List PageResp) :
    wfChain (PageResp.ok v next :: rest) = true ↔
      (rest = [] ∧ next.truthy = false) ∨
      (rest ≠ [] ∧ goodLink next = true ∧ wfChain rest = true) := by
  cases rest with
  | nil => simp [wfChain]
  | cons q rs => simp [wfChain]

/-- Main invariant of the pagination loop on a well-formed chain with an
integral nonnegative `top`: the loop returns the `top`-prefix of
everything the chain holds (past what was already accumulated), and
issues one request per page consumed, stopping at the first page that
meets the quota. -/
theorem fetch_loop_wf (chain : List PageResp) :
    ∀ (base : String) (params : List (String × Json)) (topJ : Json) (t : Int)
      (url : String) (acc : List Json) (reqs : List GetRequest),
    wfChain chain = true → pyInt topJ = Except.ok t → 0 ≤ t → (acc.length : Int) ≤ t →
    (fetch_loop base params topJ url acc reqs chain).2 =
        Outcome.ok ((acc ++ allMessages chain).take t.toNat) ∧
    (fetch_loop base params topJ url acc reqs chain).1.length =
        reqs.length + pagesNeeded t.toNat acc.length chain := by
  induction chain with
  | nil =>
    intro base params topJ t url acc reqs hwf _ _ _
    simp [wfChain] at hwf
  | cons p rest ih =>
    intro base params topJ t url acc reqs hwf hT ht0 hacc
    cases p with
    | err status text => simp [wfChain] at hwf
    | ok v next =>
      rw [wfChain_cons_ok] at hwf
      simp only [fetch_loop, hT, allMessages, PageResp.pageValue]
      by_cases hq : (((acc ++ v).length : Int) ≥ t)
      · have hlen : t.toNat ≤ acc.length + v.length := by
          rw [List.length_append] at hq; omega
        have htake : (acc ++ (v ++ allMessages rest)).take t.toNat = pyTake (acc ++ v) t := by
          rw [pyTake, if_pos ht0, ← List.append_assoc,
            List.take_append_of_le_length (by rw [List.length_append]; exact hlen)]
        simp only [hq, if_true, pagesNeeded, PageResp.pageValue, hlen, if_pos]
        constructor
        · rw [htake]
        · simp [List.length_append]
      · have hlt : acc.length + v.length < t.toNat := by
          rw [List.length_append] at hq; omega
        have hcond : ¬ (t.toNat ≤ acc.length + v.length) := by omega
        rcases hwf with ⟨hrest, hfalsy⟩ | ⟨hne, hlink, hwf'⟩
        · subst hrest
          simp only [hq, if_false, hfalsy, Bool.false_eq_true, allMessages, List.append_nil,
            pagesNeeded, PageResp.pageValue]
          constructor
          · rw [List.take_of_length_le (by rw [List.length_append]; omega)]
          · rw [if_neg hcond]
            simp [List.length_append]
        · rcases (goodLink_iff next).1 hlink with ⟨u, rfl, hu⟩
          have htr : (Json.str u).truthy = true := by simp [Json.truthy, hu]
          simp only [hq, if_false, htr, if_true]
          have hih := ih base params topJ t u (acc ++ v) (reqs ++ [⟨url, if url = base then some params else none⟩])
            hwf' hT ht0 (by rw [List.length_append]; push_cast; omega)
          rcases hih with ⟨h1, h2⟩
          constructor
          · rw [h1, List.append_assoc]
          · rw [h2, List.length_append, List.length_append, pagesNeeded]
            simp only [PageResp.pageValue]
            rw [if_neg hcond]
            simp
            omega

theorem fetch_base_url_ok (user_id : String) (folder : Json) (h : folderArg folder) :
    ∃ base, fetch_base_url user_id folder = Except.ok base := by
  rcases h with ⟨s, rfl⟩ | h
  · exact ⟨_, rfl⟩
  · cases folder with
    | str s => exact ⟨_, rfl⟩
    | null => exact ⟨_, rfl⟩
    | bool b => simp [fetch_base_url, h]
    | num n => simp [fetch_base_url, h]
    | arr items => simp [fetch_base_url, h]
    | obj fields => simp [fetch_base_url, h]

/- ## Claim theorems -/

/-- C1: for every top value N ≥ 0 and every provider chain holding M
messages, `fetch_emails` (hence a `read` action) returns exactly the
first `min(N, M)` messages in the provider's order: the result is the
N-prefix of the chain's concatenated pages, its length is `min N M`, and
the loop stops requesting at the first page that meets the quota. -/
theorem C1_read_returns_min (user_id folder : String) (n : Int) (filter_query : Json)
    (chain : List PageResp) (hn : 0 ≤ n) (hwf : wfChain chain = true) :
    (fetch_emails user_id (Json.str folder) (Json.num n) filter_query chain).2 =
        Outcome.ok ((allMessages chain).take n.toNat) ∧
    ((allMessages chain).take n.toNat).length = min n.toNat (allMessages chain).length ∧
    (fetch_emails user_id (Json.str folder) (Json.num n) filter_query chain).1.length =
        pagesNeeded n.toNat 0 chain := by
  simp only [fetch_emails, fetch_base_url]
  have h := fetch_loop_wf chain
    (if folder != "" && folder.toLower != "inbox" then mailFoldersUrl user_id folder else messagesUrl user_id)
    (build_params (Json.num n) filter_query) (Json.num n) n
    (if folder != "" && folder.toLower != "inbox" then mailFoldersUrl user_id folder else messagesUrl user_id)
    [] [] hwf rfl hn (by simp; omega)
  rcases h with ⟨h1, h2⟩
  refine ⟨?_, List.length_take _ _, ?_⟩
  · rw [h1]; simp
  · rw [h2]; simp

/-- Requests only accumulate: whatever was already issued stays in front
of whatever the rest of the loop issues. -/
theorem fetch_loop_reqs_prefix (chain : List PageResp) :
    ∀ (base : String) (params : List (String × Json)) (topJ : Json) (url : String)
      (acc : List Json) (reqs : List GetRequest),
    ∃ tail, (fetch_loop base params topJ url acc reqs chain).1 = reqs ++ tail := by
  induction chain with
  | nil => intro base params topJ url acc reqs; exact ⟨[], by simp [fetch_loop]⟩
  | cons p rest ih =>
    intro base params topJ url acc reqs
    simp only [fetch_loop]
    cases p with
    | err status text => exact ⟨_, rfl⟩
    | ok v next =>
      cases hpi : pyInt topJ with
      | error e => exact ⟨_, rfl⟩
      | ok t =>
        by_cases hq : (((acc ++ v).length : Int) ≥ t)
        · simp only [hq, if_true]
          exact ⟨_, rfl⟩
        · simp only [hq, if_false]
          by_cases htr : next.truthy
          · simp only [htr, if_true]
            cases next with
            | str u =>
              rcases ih base params topJ u (acc ++ v)
                (reqs ++ [⟨url, if url = base then some params else none⟩]) with ⟨tail, htail⟩
              exact ⟨_, by rw [htail, List.append_assoc]⟩
            | null => exact ⟨_, rfl⟩
            | bool b => exact ⟨_, rfl⟩
            | num m => exact ⟨_, rfl⟩
            | arr items => exact ⟨_, rfl⟩
            | obj fields => exact ⟨_, rfl⟩
          · simp only [htr, if_false]
            exact ⟨_, rfl⟩

/-- One step of the loop: the first request of a nonempty chain is made
to the current URL (with parameters exactly when it is the base URL),
ahead of everything else. -/
theorem fetch_loop_reqs_cons (p : PageResp) (rest : List PageResp) (base : String)
    (params : List (String × Json)) (topJ : Json) (url : String)
    (acc : List Json) (reqs : List GetRequest) :
    ∃ tail, (fetch_loop base params topJ url acc reqs (p :: rest)).1 =
      reqs ++ [⟨url, if url = base then some params else none⟩] ++ tail := by
  simp only [fetch_loop]
  cases p with
  | err status text => exact ⟨[], by simp⟩
  | ok v next =>
    cases hpi : pyInt topJ with
    | error e => exact ⟨[], by simp⟩
    | ok t =>
      by_cases hq : (((acc ++ v).length : Int) ≥ t)
      · simp only [hq, if_true]
        exact ⟨[], by simp⟩
      · simp only [hq, if_false]
        by_cases htr : next.truthy
        · simp only [htr, if_true]
          cases next with
          | str u =>
            rcases fetch_loop_reqs_prefix rest base params topJ u (acc ++ v)
              (reqs ++ [⟨url, if url = base then some params else none⟩]) with ⟨tail, htail⟩
            exact ⟨tail, htail⟩
          | null => exact ⟨[], by simp⟩
          | bool b => exact ⟨[], by simp⟩
          | num m => exact ⟨[], by simp⟩
          | arr items => exact ⟨[], by simp⟩
          | obj fields => exact ⟨[], by simp⟩
        · simp only [htr, if_false]
          exact ⟨[], by simp⟩

/-- Every request the loop issues carries the first-page parameters
exactly when its URL equals the base URL, and nothing otherwise —
line 84's `params if url == base_url else None`. -/
theorem fetch_loop_params_inv (chain : List PageResp) :
    ∀ (base : String) (params : List (String × Json)) (topJ : Json) (url : String)
      (acc : List Json) (reqs : List GetRequest),
    (∀ r ∈ reqs, r.params = if r.url = base then some params else none) →
    ∀ r ∈ (fetch_loop base params topJ url acc reqs chain).1,
      r.params = if r.url = base then some params else none := by
  induction chain with
  | nil =>
    intro base params topJ url acc reqs hinv
    simpa [fetch_loop] using hinv
  | cons p rest ih =>
    intro base params topJ url acc reqs hinv
    have hinv2 : ∀ r ∈ reqs ++ [(⟨url, if url = base then some params else none⟩ : GetRequest)],
        r.params = if r.url = base then some params else none := by
      intro r hr
      rcases List.mem_append.1 hr with h | h
      · exact hinv r h
      · simp only [List.mem_singleton] at h
        subst h
        rfl
    simp only [fetch_loop]
    cases p with
    | err status text => exact hinv2
    | ok v next =>
      cases hpi : pyInt topJ with
      | error e => exact hinv2
      | ok t =>
        by_cases hq : (((acc ++ v).length : Int) ≥ t)
        · simp only [hq, if_true]
          exact hinv2
        · simp only [hq, if_false]
          by_cases htr : next.truthy
          · simp only [htr, if_true]
            cases next with
            | str u => exact ih base params topJ u (acc ++ v) _ hinv2
            | null => exact hinv2
            | bool b => exact hinv2
            | num m => exact hinv2
            | arr items => exact hinv2
            | obj fields => exact hinv2
          · simp only [htr, if_false]
            exact hinv2

/-- C7 (amended): with a caller-supplied (truthy) filter, the filter is
attached verbatim to the first-page parameters; the first request hits
the base URL with those parameters; every request carries the parameters
exactly when its URL textually equals the base URL — so a continuation
request is issued with its link verbatim and without parameters whenever
that link differs from the base URL (the code compares URLs, not
positions, which the counterexample exploits). -/
theorem C7_filter_first_page_only (user_id : String) (folder : Json) (topJ filter_query : Json)
    (chain : List PageResp) (base : String)
    (hbase : fetch_base_url user_id folder = Except.ok base) :
    (filter_query.truthy = true →
      ("$filter", filter_query) ∈ build_params topJ filter_query) ∧
    (∀ r ∈ (fetch_emails user_id folder topJ filter_query chain).1,
      r.params = if r.url = base then some (build_params topJ filter_query) else none) ∧
    (chain ≠ [] →
      (fetch_emails user_id folder topJ filter_query chain).1.head? =
        some ⟨base, some (build_params topJ filter_query)⟩) ∧
    (∀ (v1 v2 : List Json) (next2 : Json) (u : String) (t : Int),
      pyInt topJ = Except.ok t → (v1.length : Int) < t → u ≠ "" → u ≠ base →
      (fetch_emails user_id folder topJ filter_query
          [PageResp.ok v1 (Json.str u), PageResp.ok v2 next2]).1 =
        [⟨base, some (build_params topJ filter_query)⟩, ⟨u, none⟩]) := by
  refine ⟨?_, ?_, ?_, ?_⟩
  · intro ht
    simp [build_params, ht]
  · simp only [fetch_emails, hbase]
    exact fetch_loop_params_inv chain base _ topJ base [] [] (by simp)
  · intro hne
    cases chain with
    | nil => exact absurd rfl hne
    | cons p rest =>
      simp only [fetch_emails, hbase]
      rcases fetch_loop_reqs_cons p rest base (build_params topJ filter_query) topJ base [] [] with
        ⟨tail, htail⟩
      rw [htail]
      simp
  · intro v1 v2 next2 u t hpi hlt hu hub
    have htr : (Json.str u).truthy = true := by simp [Json.truthy, hu]
    have hub' : ¬ (u = base) := hub
    simp only [fetch_emails, hbase, fetch_loop, hpi, htr, if_true, List.nil_append,
      ge_iff_le, hub', if_false]
    rw [if_neg (show ¬ t ≤ (v1.length : Int) by omega)]
    repeat first | rfl | split

/-- C7 counterexample: a provider whose continuation link textually
equals the base URL.  The second request is a continuation-link request,
yet it is issued *with* the first-page query parameters — including the
caller's `$filter` — because line 84 re-attaches parameters whenever the
URL equals the base URL, not only on the first request. -/
theorem C7_counterexample :
    (fetch_emails "u" Json.null (Json.num 1) (Json.str "f")
        [PageResp.ok [] (Json.str (messagesUrl "u")), PageResp.ok [] Json.null]).1.map GetRequest.params =
      [some (build_params (Json.num 1) (Json.str "f")),
       some (build_params (Json.num 1) (Json.str "f"))] ∧
    (build_params (Json.num 1) (Json.str "f")).map Prod.fst = ["$top", "$orderby", "$filter"] :=
  ⟨rfl, rfl⟩

theorem except_bind_ok {α β : Type} (a : α) (f : α → Except String β) :
    (Except.ok a : Except String α) >>= f = f a := rfl

theorem pyGetD_obj (fields : List (String × Json)) (key : String) (dflt : Json) :
    pyGetD (Json.obj fields) key dflt = Except.ok ((fields.lookup key).getD dflt) := rfl

theorem except_pure_eq {α : Type} (a : α) : (pure a : Except String α) = Except.ok a := rfl

theorem recipientOk_emailAddress (r : Json) (h : recipientOk r = true) :
    ∃ efl, pyGetD r "emailAddress" (Json.obj []) = Except.ok (Json.obj efl) := by
  cases r with
  | obj fields =>
    simp only [recipientOk] at h
    cases he : fields.lookup "emailAddress" with
    | none => exact ⟨[], by simp [pyGetD, he]⟩
    | some ea =>
      rw [he] at h
      cases ea with
      | obj efl => exact ⟨efl, by simp [pyGetD, he]⟩
      | null => exact absurd h (by simp)
      | bool b => exact absurd h (by simp)
      | num n => exact absurd h (by simp)
      | str s => exact absurd h (by simp)
      | arr items => exact absurd h (by simp)
  | null => exact absurd h (by simp [recipientOk])
  | bool b => exact absurd h (by simp [recipientOk])
  | num n => exact absurd h (by simp [recipientOk])
  | str s => exact absurd h (by simp [recipientOk])
  | arr items => exact absurd h (by simp [recipientOk])

theorem parseRecipient_ok (r : Json) (h : recipientOk r = true) :
    ∃ y, parseRecipient r = Except.ok y := by
  rcases recipientOk_emailAddress r h with ⟨efl, hefl⟩
  refine ⟨Json.obj [("name", (efl.lookup "name").getD Json.null),
                    ("address", (efl.lookup "address").getD Json.null)], ?_⟩
  simp only [parseRecipient, hefl, except_bind_ok]
  rfl

theorem mapME_ok (f : Json → Except String Json) (xs : List Json)
    (h : ∀ x ∈ xs, ∃ y, f x = Except.ok y) : ∃ ys, mapME f xs = Except.ok ys := by
  induction xs with
  | nil => exact ⟨[], rfl⟩
  | cons x xs ih =>
    rcases h x (by simp) with ⟨y, hy⟩
    rcases ih (fun z hz => h z (by simp [hz])) with ⟨ys, hys⟩
    exact ⟨y :: ys, by simp [mapME, hy, hys]⟩

theorem recipients_list_ok (v : Json) (h : recipientsOk v = true) :
    ∃ items, pyToList v = Except.ok items ∧ ∃ ys, mapME parseRecipient items = Except.ok ys := by
  cases v with
  | arr items =>
    simp only [recipientsOk, List.all_eq_true] at h
    exact ⟨items, rfl, mapME_ok _ items (fun x hx => parseRecipient_ok x (h x hx))⟩
  | null => exact absurd h (by simp [recipientsOk])
  | bool b => exact absurd h (by simp [recipientsOk])
  | num n => exact absurd h (by simp [recipientsOk])
  | str s => exact absurd h (by simp [recipientsOk])
  | obj fields => exact absurd h (by simp [recipientsOk])

/-- Normalization is total on well-formed raw records and yields the full
fixed key set. -/
theorem parse_email_wf (m : Json) (h : wellFormedRaw m = true) :
    ∃ fl, parse_email m = Except.ok (Json.obj fl) ∧ fl.map Prod.fst = parsedKeys := by
  cases m with
  | obj l =>
    simp only [wellFormedRaw, Bool.and_eq_true] at h
    obtain ⟨⟨⟨hfrom, hbody⟩, hto⟩, hcc⟩ := h
    have hF : ∃ efl, pyGetD ((l.lookup "from").getD (Json.obj [])) "emailAddress" (Json.obj []) =
        Except.ok (Json.obj efl) := by
      cases hf : l.lookup "from" with
      | none => exact ⟨[], rfl⟩
      | some v =>
        rw [hf] at hfrom
        simpa using recipientOk_emailAddress v hfrom
    have hB : ∃ bfl, (l.lookup "body").getD (Json.obj []) = Json.obj bfl := by
      cases hb : l.lookup "body" with
      | none => exact ⟨[], rfl⟩
      | some v =>
        rw [hb] at hbody
        cases v with
        | obj bfl => exact ⟨bfl, rfl⟩
        | null => exact absurd hbody (by simp)
        | bool b => exact absurd hbody (by simp)
        | num n => exact absurd hbody (by simp)
        | str s => exact absurd hbody (by simp)
        | arr items => exact absurd hbody (by simp)
    have hT : ∃ items, pyToList ((l.lookup "toRecipients").getD (Json.arr [])) = Except.ok items ∧
        ∃ ys, mapME parseRecipient items = Except.ok ys := by
      cases ht : l.lookup "toRecipients" with
      | none => exact ⟨[], rfl, [], rfl⟩
      | some v =>
        rw [ht] at hto
        simpa using recipients_list_ok v hto
    have hC : ∃ items, pyToList ((l.lookup "ccRecipients").getD (Json.arr [])) = Except.ok items ∧
        ∃ ys, mapME parseRecipient items = Except.ok ys := by
      cases hc : l.lookup "ccRecipients" with
      | none => exact ⟨[], rfl, [], rfl⟩
      | some v =>
        rw [hc] at hcc
        simpa using recipients_list_ok v hcc
    rcases hF with ⟨efl, hefl⟩
    rcases hB with ⟨bfl, hbfl⟩
    rcases hT with ⟨titems, htoList, tys, htys⟩
    rcases hC with ⟨citems, hccList, cys, hcys⟩
    refine ⟨[("id", (l.lookup "id").getD Json.null),
        ("subject", (l.lookup "subject").getD Json.null),
        ("from", Json.obj [("name", (efl.lookup "name").getD Json.null),
                           ("address", (efl.lookup "address").getD Json.null)]),
        ("to", Json.arr tys), ("cc", Json.arr cys),
        ("receivedDateTime", (l.lookup "receivedDateTime").getD Json.null),
        ("sentDateTime", (l.lookup "sentDateTime").getD Json.null),
        ("hasAttachments", (l.lookup "hasAttachments").getD (Json.bool false)),
        ("importance", (l.lookup "importance").getD Json.null),
        ("isRead", (l.lookup "isRead").getD (Json.bool false)),
        ("isDraft", (l.lookup "isDraft").getD (Json.bool false)),
        ("bodyPreview", (l.lookup "bodyPreview").getD Json.null),
        ("body", Json.obj [("contentType", (bfl.lookup "contentType").getD Json.null),
                           ("content", (bfl.lookup "content").getD Json.null)]),
        ("conversationId", (l.lookup "conversationId").getD Json.null),
        ("internetMessageId", (l.lookup "internetMessageId").getD Json.null),
        ("webLink", (l.lookup "webLink").getD Json.null)], ?_, ?_⟩
    · simp only [parse_email, pyGet, pyGetD_obj, except_bind_ok, hefl, hbfl, htoList, htys,
        hccList, hcys, except_pure_eq]
    · simp [parsedKeys]
  | null => exact absurd h (by simp [wellFormedRaw])
  | bool b => exact absurd h (by simp [wellFormedRaw])
  | num n => exact absurd h (by simp [wellFormedRaw])
  | str s => exact absurd h (by simp [wellFormedRaw])
  | arr items => exact absurd h (by simp [wellFormedRaw])

/-- C2: message normalization is total over raw records with arbitrarily
many fields absent (a record is a dict whose present nested fields have
the provider's dict/list shape): it never fails, always produces the full
fixed key set, and the all-fields-absent record maps to
null/false/empty-sequence defaults. -/
theorem C2_normalization_total :
    (∀ m : Json, wellFormedRaw m = true →
      ∃ fl, parse_email m = Except.ok (Json.obj fl) ∧ fl.map Prod.fst = parsedKeys) ∧
    parse_email (Json.obj []) = Except.ok emptyParsed :=
  ⟨parse_email_wf, rfl⟩

/-- Witness for C2 at a partially-populated concrete record. -/
theorem C2_normalization_total_witness :
    (∃ fl, parse_email (Json.obj [("subject", Json.str "hi"),
        ("from", Json.obj [("emailAddress", Json.obj [("name", Json.str "A"), ("address", Json.str "a@b")])]),
        ("toRecipients", Json.arr [Json.obj [("emailAddress", Json.obj [("address", Json.str "c@d")])]])]) =
      Except.ok (Json.obj fl) ∧ fl.map Prod.fst = parsedKeys) ∧
    parse_email (Json.obj []) = Except.ok emptyParsed :=
  ⟨C2_normalization_total.1 _ (by decide), C2_normalization_total.2⟩

theorem pyTake_subset (l : List Json) (n : Int) : pyTake l n ⊆ l := by
  unfold pyTake
  split
  · exact List.take_subset _ _
  · exact List.take_subset _ _

theorem mem_allMessages (x : Json) (chain : List PageResp) :
    x ∈ allMessages chain ↔ ∃ p ∈ chain, x ∈ p.pageValue := by
  induction chain with
  | nil => simp [allMessages]
  | cons p rest ih =>
    simp only [allMessages, List.mem_append, ih, List.mem_cons]
    constructor
    · rintro (hx | ⟨q, hq, hxq⟩)
      · exact ⟨p, Or.inl rfl, hx⟩
      · exact ⟨q, Or.inr hq, hxq⟩
    · rintro ⟨q, hq | hq, hxq⟩
      · subst hq; exact Or.inl hxq
      · exact Or.inr ⟨q, hq, hxq⟩

/-- The loop never lets an exception escape: its outcome is a result or a
fatal exit (every in-loop exception is caught and turned into
`sys.exit(1)`). -/
theorem fetch_loop_no_raise (chain : List PageResp) :
    ∀ (base : String) (params : List (String × Json)) (topJ : Json) (url : String)
      (acc : List Json) (reqs : List GetRequest),
    (∃ l, (fetch_loop base params topJ url acc reqs chain).2 = Outcome.ok l) ∨
    (∃ e, (fetch_loop base params topJ url acc reqs chain).2 = Outcome.fatal e) := by
  induction chain with
  | nil =>
    intro base params topJ url acc reqs
    exact Or.inr ⟨_, rfl⟩
  | cons p rest ih =>
    intro base params topJ url acc reqs
    simp only [fetch_loop]
    cases p with
    | err status text => exact Or.inr ⟨_, rfl⟩
    | ok v next =>
      cases hpi : pyInt topJ with
      | error e => exact Or.inr ⟨_, rfl⟩
      | ok t =>
        by_cases hq : (((acc ++ v).length : Int) ≥ t)
        · simp only [hq, if_true]
          exact Or.inl ⟨_, rfl⟩
        · simp only [hq, if_false]
          by_cases htr : next.truthy
          · simp only [htr, if_true]
            cases next with
            | str u => exact ih base params topJ u (acc ++ v) _
            | null => exact Or.inr ⟨_, rfl⟩
            | bool b => exact Or.inr ⟨_, rfl⟩
            | num m => exact Or.inr ⟨_, rfl⟩
            | arr items => exact Or.inr ⟨_, rfl⟩
            | obj fields => exact Or.inr ⟨_, rfl⟩
          · simp only [htr, if_false]
            exact Or.inl ⟨_, rfl⟩

/-- Whatever the loop returns came from the accumulator or from some
page of the chain. -/
theorem fetch_loop_ok_mem (chain : List PageResp) :
    ∀ (base : String) (params : List (String × Json)) (topJ : Json) (url : String)
      (acc : List Json) (reqs : List GetRequest) (l : List Json),
    (fetch_loop base params topJ url acc reqs chain).2 = Outcome.ok l →
    ∀ x ∈ l, x ∈ acc ∨ x ∈ allMessages chain := by
  induction chain with
  | nil =>
    intro base params topJ url acc reqs l h
    exact Outcome.noConfusion h
  | cons p rest ih =>
    intro base params topJ url acc reqs l
    simp only [fetch_loop]
    cases p with
    | err status text => exact fun h => Outcome.noConfusion h
    | ok v next =>
      cases hpi : pyInt topJ with
      | error e => exact fun h => Outcome.noConfusion h
      | ok t =>
        by_cases hq : (((acc ++ v).length : Int) ≥ t)
        · simp only [hq, if_true]
          intro h x hx
          have hl : pyTake (acc ++ v) t = l := by injection h
          subst hl
          have hx2 : x ∈ acc ++ v := pyTake_subset (acc ++ v) t hx
          rcases List.mem_append.1 hx2 with hxa | hxv
          · exact Or.inl hxa
          · exact Or.inr (by simp [allMessages, PageResp.pageValue, hxv])
        · simp only [hq, if_false]
          by_cases htr : next.truthy
          · simp only [htr, if_true]
            cases next with
            | str u =>
              intro h x hx
              rcases ih base params topJ u (acc ++ v) _ l h x hx with hx2 | hx2
              · rcases List.mem_append.1 hx2 with hxa | hxv
                · exact Or.inl hxa
                · exact Or.inr (by simp [allMessages, PageResp.pageValue, hxv])
              · exact Or.inr (by simp [allMessages, PageResp.pageValue, hx2])
            | null => exact fun h => Outcome.noConfusion h
            | bool b => exact fun h => Outcome.noConfusion h
            | num m => exact fun h => Outcome.noConfusion h
            | arr items => exact fun h => Outcome.noConfusion h
            | obj fields => exact fun h => Outcome.noConfusion h
          · simp only [htr, if_false]
            intro h x hx
            have hl : acc ++ v = l := by injection h
            subst hl
            rcases List.mem_append.1 hx with hxa | hxv
            · exact Or.inl hxa
            · exact Or.inr (by simp [allMessages, PageResp.pageValue, hxv])

/-- C4 (amended): for every dict action record whose `read` folder field
is spec-typed (a string, or absent/falsy), and every environment in which
each raw message the provider delivers is well-formed, the dispatcher
returns an ActionResult or terminates the run fatally inside the fetch
layer — no exception escapes; and a transport exception during a move or
a nonempty state update is caught inside the mutator and converted to a
`{success: false, message}` record, never propagated. -/
theorem C4_dispatcher_no_raise :
    (∀ (user_id : String) (al : List (String × Json)) (env : ActionEnv),
      (dictGet al "action" = Json.str "read" →
        folderArg (dictGetD al "folder" (Json.str "inbox"))) →
      wfRawChain env.chain →
      (∃ r, (process_action user_id (Json.obj al) env).1 = Outcome.ok r) ∨
      (∃ e, (process_action user_id (Json.obj al) env).1 = Outcome.fatal e)) ∧
    (∀ (user_id : String) (message_id target_folder flagged is_read : Json) (e : String),
      (move_email user_id message_id target_folder (HttpOutcome.exc e)).1 =
        ActionResult.status false ("Error moving email " ++ Json.pyStr message_id ++ ": " ++ e) ∧
      (update_body flagged is_read ≠ [] →
        (update_email_state user_id message_id flagged is_read (HttpOutcome.exc e)).1 =
          ActionResult.status false ("Error updating email " ++ Json.pyStr message_id ++ ": " ++ e))) := by
  constructor
  · intro user_id al env hfolder hchain
    simp only [process_action]
    split
    · rename_i heq
      rcases fetch_base_url_ok user_id (dictGetD al "folder" (Json.str "inbox")) (hfolder heq) with
        ⟨base, hbase⟩
      simp only [fetch_emails, hbase]
      rcases fetch_loop_no_raise env.chain base
          (build_params (dictGetD al "top" (Json.num 100)) (dictGet al "filter"))
          (dictGetD al "top" (Json.num 100)) base [] [] with ⟨l, hl⟩ | ⟨er, he⟩
      · rw [hl]
        have hwfl : ∀ x ∈ l, ∃ y, parse_email x = Except.ok y := by
          intro x hx
          rcases fetch_loop_ok_mem env.chain base
              (build_params (dictGetD al "top" (Json.num 100)) (dictGet al "filter"))
              (dictGetD al "top" (Json.num 100)) base [] [] l hl x hx with hxa | hxm
          · exact absurd hxa (List.not_mem_nil x)
          · rcases (mem_allMessages x env.chain).1 hxm with ⟨p, hp, hxp⟩
            rcases parse_email_wf x (hchain p hp x hxp) with ⟨fl2, hok2, _⟩
            exact ⟨_, hok2⟩
        rcases mapME_ok parse_email l hwfl with ⟨ys, hys⟩
        exact Or.inl ⟨ActionResult.messages ys, by simp [hys]⟩
      · rw [he]
        exact Or.inr ⟨_, rfl⟩
    · split
      · exact Or.inl ⟨_, rfl⟩
      · exact Or.inl ⟨_, rfl⟩
    · split
      · exact Or.inl ⟨_, rfl⟩
      · exact Or.inl ⟨_, rfl⟩
    · exact Or.inl ⟨_, rfl⟩
  · intro user_id message_id target_folder flagged is_read e
    constructor
    · rfl
    · intro hbody
      have hne : ¬ ((update_body flagged is_read).isEmpty = true) := by
        simp [List.isEmpty_iff, hbody]
      simp only [update_email_state]
      rw [if_neg hne]

/-- C4 counterexample (to the claim as stated): a well-typed `read`
action against a provider whose single message has `from` present with
value null makes `process_action` raise an uncaught exception out of the
dispatcher (from `parse_email`), instead of returning an ActionResult. -/
theorem C4_counterexample :
    (process_action "u" (Json.obj [("action", Json.str "read")])
        ⟨[PageResp.ok [Json.obj [("from", Json.null)]] Json.null],
         HttpOutcome.resp 200 "", HttpOutcome.resp 200 ""⟩).1 =
      Outcome.raised "AttributeError: get" := rfl

/-- Witness for C4 at concrete inputs (read action on the empty chain;
move and state-update transport exceptions). -/
theorem C4_dispatcher_no_raise_witness :
    ((∃ r, (process_action "u" (Json.obj [("action", Json.str "read")])
        ⟨[], HttpOutcome.resp 200 "", HttpOutcome.resp 200 ""⟩).1 = Outcome.ok r) ∨
     (∃ e, (process_action "u" (Json.obj [("action", Json.str "read")])
        ⟨[], HttpOutcome.resp 200 "", HttpOutcome.resp 200 ""⟩).1 = Outcome.fatal e)) ∧
    (move_email "u" (Json.str "m1") (Json.str "Archive") (HttpOutcome.exc "boom")).1 =
      ActionResult.status false ("Error moving email " ++ Json.pyStr (Json.str "m1") ++ ": " ++ "boom") ∧
    (update_email_state "u" (Json.str "m1") (Json.bool true) Json.null (HttpOutcome.exc "boom")).1 =
      ActionResult.status false ("Error updating email " ++ Json.pyStr (Json.str "m1") ++ ": " ++ "boom") :=
  ⟨C4_dispatcher_no_raise.1 "u" [("action", Json.str "read")]
      ⟨[], HttpOutcome.resp 200 "", HttpOutcome.resp 200 ""⟩
      (fun _ => Or.inl ⟨"inbox", rfl⟩) (fun p hp => absurd hp (List.not_mem_nil p)),
   (C4_dispatcher_no_raise.2 "u" (Json.str "m1") (Json.str "Archive") (Json.bool true) Json.null "boom").1,
   (C4_dispatcher_no_raise.2 "u" (Json.str "m1") (Json.str "Archive") (Json.bool true) Json.null "boom").2
     (by simp [update_body])⟩

/-- An environment whose transports answer 200 and whose chain is empty;
used for concrete instances that never reach the transport. -/
def envNoop : ActionEnv := ⟨[], HttpOutcome.resp 200 "", HttpOutcome.resp 200 ""⟩

/-- The PATCH requests of a state update do not depend on the transport:
none when the body is empty, exactly one otherwise. -/
theorem update_email_state_reqs (user_id : String) (message_id flagged is_read : Json)
    (t : HttpOutcome) :
    (update_email_state user_id message_id flagged is_read t).2 =
      if (update_body flagged is_read).isEmpty then []
      else [⟨messageUrl user_id message_id, update_body flagged is_read⟩] := by
  by_cases hb : (update_body flagged is_read).isEmpty = true
  · simp [update_email_state, hb]
  · cases t with
    | resp status text =>
      by_cases hs : status = 200 <;> simp [update_email_state, hb, hs]
    | exc e => simp [update_email_state, hb]

/-- C5 (amended): for every `state` action whose `mail` is present and
*nonempty* and whose `flagged`/`isRead` are each either absent or a
boolean: if both are absent the result is `{success:false}` and no PATCH
is issued; if at least one is present (including the value `false`),
exactly one PATCH is issued — whatever the transport answers — and its
body holds exactly the supplied field(s), `flagged` mapped to the
two-valued flagged/notFlagged representation and `isRead` passed through
as a boolean. -/
theorem C5_state_requests (user_id mail : String) (flagged isRead : Option Bool)
    (env : ActionEnv) (hm : mail ≠ "") :
    (flagged = none → isRead = none →
      (process_action user_id (stateAction mail flagged isRead) env).1 =
        Outcome.ok (ActionResult.status false ("No state changes specified for email " ++ mail)) ∧
      (process_action user_id (stateAction mail flagged isRead) env).2 = []) ∧
    ((flagged.isSome ∨ isRead.isSome) →
      (process_action user_id (stateAction mail flagged isRead) env).2 =
        [⟨messageUrl user_id (Json.str mail), stateBody flagged isRead⟩] ∧
      (stateBody flagged isRead).map Prod.fst =
        (if flagged.isSome then ["flag"] else []) ++
        (if isRead.isSome then ["isRead"] else [])) := by
  constructor
  · rintro rfl rfl
    simp [process_action, stateAction, dictGet, dictGetD, List.lookup, update_email_state,
      update_body, Json.truthy, Json.pyStr, hm]
  · intro hsome
    constructor
    · cases flagged <;> cases isRead <;>
        simp_all [process_action, stateAction, dictGet, dictGetD, List.lookup,
          update_email_state_reqs, update_body, stateBody, Json.truthy, hm]
    · cases flagged <;> cases isRead <;> simp_all [stateBody]

/-- C5 counterexample (to the claim as stated): a `state` action whose
`mail` field is present (the empty string) and whose `isRead` is present
issues *no* update request — the truthiness validation rejects it with
{success:false} before the mutator is reached. -/
theorem C5_counterexample :
    (process_action "u" (Json.obj [("action", Json.str "state"), ("mail", Json.str ""),
        ("isRead", Json.bool false)]) envNoop).2 = [] ∧
    (process_action "u" (Json.obj [("action", Json.str "state"), ("mail", Json.str ""),
        ("isRead", Json.bool false)]) envNoop).1 =
      Outcome.ok (ActionResult.status false "State action requires \"mail\" field") :=
  ⟨rfl, rfl⟩

/-- Witness for C5: both-absent and isRead-false instances at mail "m1". -/
theorem C5_state_requests_witness :
    ((process_action "u" (stateAction "m1" none none) envNoop).1 =
        Outcome.ok (ActionResult.status false ("No state changes specified for email " ++ "m1")) ∧
      (process_action "u" (stateAction "m1" none none) envNoop).2 = []) ∧
    ((process_action "u" (stateAction "m1" none (some false)) envNoop).2 =
        [⟨messageUrl "u" (Json.str "m1"), stateBody none (some false)⟩] ∧
      (stateBody none (some false)).map Prod.fst =
        (if (none : Option Bool).isSome then ["flag"] else []) ++
        (if (some false).isSome then ["isRead"] else [])) :=
  ⟨(C5_state_requests "u" "m1" none none envNoop (by decide)).1 rfl rfl,
   (C5_state_requests "u" "m1" none (some false) envNoop (by decide)).2 (Or.inr rfl)⟩

/-- C8: a `move` action missing its `mail` field or its `folder` field
(or both) returns {success:false} with the explanatory message and never
issues a mutation request — `move_email` is not reached. -/
theorem C8_move_missing_fields (user_id : String) (al : List (String × Json)) (env : ActionEnv)
    (ha : al.lookup "action" = some (Json.str "move"))
    (hmf : al.lookup "mail" = none ∨ al.lookup "folder" = none) :
    (process_action user_id (Json.obj al) env).1 =
      Outcome.ok (ActionResult.status false "Move action requires both \"mail\" and \"folder\" fields") ∧
    (process_action user_id (Json.obj al) env).2 = [] := by
  have hact : dictGet al "action" = Json.str "move" := by simp [dictGet, ha]
  simp only [process_action, hact]
  rcases hmf with h | h <;> simp [dictGet, h, Json.truthy]

/-- Witness for C8: a move action with `mail` but no `folder`. -/
theorem C8_move_missing_fields_witness :
    (process_action "u" (Json.obj [("action", Json.str "move"), ("mail", Json.str "m1")]) envNoop).1 =
      Outcome.ok (ActionResult.status false "Move action requires both \"mail\" and \"folder\" fields") ∧
    (process_action "u" (Json.obj [("action", Json.str "move"), ("mail", Json.str "m1")]) envNoop).2 = [] :=
  C8_move_missing_fields "u" [("action", Json.str "move"), ("mail", Json.str "m1")] envNoop
    rfl (Or.inr rfl)

/-- C10: required-field validation uses truthiness, not presence: a
`move` whose `mail` or `folder` is present but the empty string, and a
`state` whose `mail` is the empty string, behave exactly as if the field
were absent — same {success:false} message, no mutation request. -/
theorem C10_truthiness_validation (user_id : String) (al : List (String × Json))
    (env : ActionEnv) :
    (al.lookup "action" = some (Json.str "move") →
      (al.lookup "mail" = some (Json.str "") ∨ al.lookup "folder" = some (Json.str "")) →
      (process_action user_id (Json.obj al) env).1 =
        Outcome.ok (ActionResult.status false "Move action requires both \"mail\" and \"folder\" fields") ∧
      (process_action user_id (Json.obj al) env).2 = []) ∧
    (al.lookup "action" = some (Json.str "state") →
      al.lookup "mail" = some (Json.str "") →
      (process_action user_id (Json.obj al) env).1 =
        Outcome.ok (ActionResult.status false "State action requires \"mail\" field") ∧
      (process_action user_id (Json.obj al) env).2 = []) := by
  constructor
  · intro ha hmf
    have hact : dictGet al "action" = Json.str "move" := by simp [dictGet, ha]
    simp only [process_action, hact]
    rcases hmf with h | h <;> simp [dictGet, h, Json.truthy]
  · intro ha hm
    have hact : dictGet al "action" = Json.str "state" := by simp [dictGet, ha]
    simp only [process_action, hact]
    simp [dictGet, hm, Json.truthy]

/-- Witness for C10: empty-string `mail` on a move (with folder present)
and on a state action. -/
theorem C10_truthiness_validation_witness :
    ((process_action "u" (Json.obj [("action", Json.str "move"), ("mail", Json.str ""),
          ("folder", Json.str "Archive")]) envNoop).1 =
        Outcome.ok (ActionResult.status false "Move action requires both \"mail\" and \"folder\" fields") ∧
      (process_action "u" (Json.obj [("action", Json.str "move"), ("mail", Json.str ""),
          ("folder", Json.str "Archive")]) envNoop).2 = []) ∧
    ((process_action "u" (Json.obj [("action", Json.str "state"), ("mail", Json.str "")]) envNoop).1 =
        Outcome.ok (ActionResult.status false "State action requires \"mail\" field") ∧
      (process_action "u" (Json.obj [("action", Json.str "state"), ("mail", Json.str "")]) envNoop).2 = []) :=
  ⟨(C10_truthiness_validation "u" [("action", Json.str "move"), ("mail", Json.str ""),
        ("folder", Json.str "Archive")] envNoop).1 rfl (Or.inl rfl),
   (C10_truthiness_validation "u" [("action", Json.str "state"), ("mail", Json.str "")] envNoop).2
      rfl rfl⟩

/-- C6: the batch output preserves action order and, within a read,
message order.  When every dispatch returns a result, the output is the
in-order concatenation of per-action record lists — a read's messages
appended individually, every move/state/unknown result as exactly one
record; in particular a read followed by a move yields the read's K
messages followed by exactly one move-result object. -/
theorem C6_batch_order (user_id : String) :
    (∀ (pairs : List (Json × ActionEnv)),
      (∀ p ∈ pairs, ∃ r, (process_action user_id p.1 p.2).1 = Outcome.ok r) →
      run_actions user_id pairs =
        Outcome.ok (listFlat (pairs.map (fun p => outRecords (process_action user_id p.1 p.2).1)))) ∧
    (∀ (aRead : Json) (eRead : ActionEnv) (aMove : Json) (eMove : ActionEnv)
       (msgs : List Json) (s : Bool) (m : String),
      (process_action user_id aRead eRead).1 = Outcome.ok (ActionResult.messages msgs) →
      (process_action user_id aMove eMove).1 = Outcome.ok (ActionResult.status s m) →
      run_actions user_id [(aRead, eRead), (aMove, eMove)] =
        Outcome.ok (msgs ++ [Json.obj [("success", Json.bool s), ("message", Json.str m)]])) := by
  constructor
  · intro pairs h
    induction pairs with
    | nil => simp [run_actions, listFlat]
    | cons p rest ih =>
      obtain ⟨a, env⟩ := p
      rcases h (a, env) (by simp) with ⟨r, hr⟩
      have ih2 := ih (fun q hq => h q (by simp [hq]))
      simp [run_actions, hr, ih2, listFlat, outRecords]
  · intro aRead eRead aMove eMove msgs s m h1 h2
    simp [run_actions, h1, h2, ActionResult.records]

/-- Witness for C6: a one-message read followed by a rejected move. -/
theorem C6_batch_order_witness :
    run_actions "u" [(Json.obj [("action", Json.str "read"), ("top", Json.num 1)],
        (⟨[PageResp.ok [Json.obj []] Json.null], HttpOutcome.resp 200 "", HttpOutcome.resp 200 ""⟩ : ActionEnv)),
      (Json.obj [("action", Json.str "move")], envNoop)] =
      Outcome.ok ([emptyParsed] ++
        [Json.obj [("success", Json.bool false),
          ("message", Json.str "Move action requires both \"mail\" and \"folder\" fields")]]) :=
  (C6_batch_order "u").2
    (Json.obj [("action", Json.str "read"), ("top", Json.num 1)])
    ⟨[PageResp.ok [Json.obj []] Json.null], HttpOutcome.resp 200 "", HttpOutcome.resp 200 ""⟩
    (Json.obj [("action", Json.str "move")]) envNoop
    [emptyParsed] false "Move action requires both \"mail\" and \"folder\" fields" rfl rfl

/-- Witness for C7: a two-page chain whose continuation link "NEXT"
differs from the base URL; the second request is verbatim, bare. -/
theorem C7_filter_first_page_only_witness :
    (fetch_emails "u" Json.null (Json.num 5) (Json.str "f")
        [PageResp.ok [Json.str "m1"] (Json.str "NEXT"), PageResp.ok [Json.str "m2"] Json.null]).1 =
      [⟨messagesUrl "u", some (build_params (Json.num 5) (Json.str "f"))⟩, ⟨"NEXT", none⟩] :=
  (C7_filter_first_page_only "u" Json.null (Json.num 5) (Json.str "f")
      [PageResp.ok [Json.str "m1"] (Json.str "NEXT"), PageResp.ok [Json.str "m2"] Json.null]
      (messagesUrl "u") rfl).2.2.2 [Json.str "m1"] [Json.str "m2"] Json.null "NEXT" 5
    rfl (by decide) (by decide) (by decide)

/-- C9: normalization totality holds only for *absent* fields.  A nested
field present with the value null makes `parse_email` raise instead of
producing a default-filled record: the default of `.get(key, default)`
is not applied when the key maps to null, so the chained `.get` hits a
non-dict (`from`, `body`) or a non-iterable (`toRecipients`). -/
theorem C9_present_null_raises :
    parse_email (Json.obj [("from", Json.null)]) = Except.error "AttributeError: get" ∧
    parse_email (Json.obj [("body", Json.null)]) = Except.error "AttributeError: get" ∧
    parse_email (Json.obj [("toRecipients", Json.null)]) = Except.error "TypeError: not iterable" :=
  ⟨rfl, rfl, rfl⟩

/-- C3: with no action list supplied, the legacy run is exactly the batch
run of the single synthesized `read` action {action, folder, top, filter}
built from the top-level configuration with its defaults (folder "inbox",
top 100, filter none), through the same dispatcher path and with no
wrapping of the output. -/
theorem C3_legacy_equiv (user_id : String) (cfg : Config) (chain : List PageResp)
    (moveT patchT : HttpOutcome) :
    legacy_run user_id cfg chain =
      run_actions user_id [(synthAction cfg, ⟨chain, moveT, patchT⟩)] := by
  cases hf : (fetch_emails user_id (if cfg.folder.truthy then cfg.folder else Json.str "inbox")
      (if cfg.top.truthy then cfg.top else Json.num 100)
      (if cfg.filter.truthy then cfg.filter else Json.null) chain).2 with
  | ok msgs =>
    cases hm : mapME parse_email msgs with
    | ok parsed =>
      simp [legacy_run, run_actions, process_action, synthAction, dictGet, dictGetD,
        List.lookup, hf, hm, ActionResult.records]
    | error e =>
      simp [legacy_run, run_actions, process_action, synthAction, dictGet, dictGetD,
        List.lookup, hf, hm]
  | fatal m =>
    simp [legacy_run, run_actions, process_action, synthAction, dictGet, dictGetD,
      List.lookup, hf]
  | raised m =>
    simp [legacy_run, run_actions, process_action, synthAction, dictGet, dictGetD,
      List.lookup, hf]

/-- Concrete two-page chain for the C1 witness. -/
def c1Chain : List PageResp :=
  [PageResp.ok [Json.str "m1", Json.str "m2"] (Json.str "L"),
   PageResp.ok [Json.str "m3", Json.str "m4"] Json.null]

/-- Witness for C1: top 3 against 4 available messages over two pages. -/
theorem C1_read_returns_min_witness :
    (fetch_emails "user" (Json.str "inbox") (Json.num 3) Json.null c1Chain).2 =
        Outcome.ok ((allMessages c1Chain).take (Int.toNat 3)) ∧
    ((allMessages c1Chain).take (Int.toNat 3)).length = min (Int.toNat 3) (allMessages c1Chain).length ∧
    (fetch_emails "user" (Json.str "inbox") (Json.num 3) Json.null c1Chain).1.length =
        pagesNeeded (Int.toNat 3) 0 c1Chain :=
  C1_read_returns_min "user" "inbox" 3 Json.null c1Chain (by decide) (by decide)

end OutlookStep
